import Mathlib

/-!
Verification of the macq ARMS extraction code (src/macq/extract/arms.py) and
the core data model (src/core.py) against its natural-language specification.

Shallow embedding conventions:
- Python integers are Int, Python floats are modelled by Rat where only exact
  decimal values and order comparisons matter (no rounding behaviour of IEEE
  doubles is relied on anywhere below).
- Python sets of strings are modelled by the List String of their iteration
  order (CPython iteration order of a set is not a function of the mathematical
  set contents; it depends on insertion history, so the insertion sequence is
  the honest observable).  Set equality, intersection, subset and truthiness
  get explicit helpers with Python semantics.
- Python dicts are association lists with first-match lookup; assignment
  updates the first entry whose key compares equal (keeping the stored key
  object, as CPython does) and appends otherwise.
- Fallible Python code returns Except; raising an exception is the error case.
-/

namespace Macq

/-- Python error values raised by the embedded code. -/
inductive PyErr where
  | valueError (msg : String) : PyErr
  | typeError (msg : String) : PyErr
  | exception (msg : String) : PyErr
  deriving DecidableEq, Repr

/-- Python numeric or string value passed as an Effect probability.
Floats are represented by exact rationals: the code paths below only use
order comparisons and the success of int() conversion, both of which agree
with IEEE doubles on the decimal literals used in the theorems. -/
inductive PyVal where
  | int (n : Int) : PyVal
  | float (q : Rat) : PyVal
  | str (s : String) : PyVal
  deriving DecidableEq, Repr

/-- Python int(x) conversion as used in Effect.set_prob (src/core.py line 59):
succeeds on ints, truncates floats toward zero without raising, raises
ValueError on a string that does not parse as an integer. -/
def pyIntConv : PyVal → Except PyErr Int
  | .int n => .ok n
  | .float q => .ok (q.num / (q.den : Int))
  | .str s =>
    match s.toInt? with
    | some n => .ok n
    | none => .error (.valueError "invalid literal for int()")

/-- Python comparison x < n against an int literal: ints and floats compare
numerically, a string compared with an int raises TypeError. -/
def pyLtInt : PyVal → Int → Except PyErr Bool
  | .int m, n => .ok (decide (m < n))
  | .float q, n => .ok (decide (q < (n : Rat)))
  | .str _, _ => .error (.typeError "not supported between instances of str and int")

/-- Python comparison x > n against an int literal, same conventions. -/
def pyGtInt : PyVal → Int → Except PyErr Bool
  | .int m, n => .ok (decide (m > n))
  | .float q, n => .ok (decide (q > (n : Rat)))
  | .str _, _ => .error (.typeError "not supported between instances of str and int")

/-- Effect.set_prob from src/core.py lines 43-67: tries int(prob) catching only
ValueError (re-raising its own message), then clamps prob below 0 to the int 0
and above 100 to the int 100, otherwise returns prob unchanged. -/
def Effect.set_prob (prob : PyVal) : Except PyErr PyVal :=
  match pyIntConv prob with
  | .error (.valueError _) =>
    .error (.valueError "Must enter an integer value for probability.")
  | .error e => .error e
  | .ok _ => do
    let lt0 ← pyLtInt prob 0
    if lt0 then
      pure (.int 0)
    else
      let gt100 ← pyGtInt prob 100
      if gt100 then pure (.int 100) else pure prob

/-- Predicate from src/core.py lines 6-19: a name applied to a list of
objects.  Objects are modelled by their identifying strings. -/
structure Predicate where
  name : String
  objects : List String
  deriving DecidableEq, Repr

/-- Effect from src/core.py lines 22-41: a Predicate plus the realizer
function name and the validated probability. -/
structure Effect where
  name : String
  objects : List String
  func : String
  probability : PyVal
  deriving DecidableEq, Repr

/-- Effect.__init__ from src/core.py lines 23-41: stores name, objects, func
and the result of set_prob on the supplied probability (propagating any
exception set_prob raises). -/
def Effect.init (name : String) (objects : List String) (func : String)
    (probability : PyVal) : Except PyErr Effect := do
  let p ← Effect.set_prob probability
  pure ⟨name, objects, func, p⟩

/-- Action from src/core.py lines 70-92: a name, the declared object
parameters, and the accumulated precondition and effect lists. -/
structure Action where
  name : String
  obj_params : List String
  precond : List Predicate
  effects : List Effect
  deriving DecidableEq, Repr

/-- Action.add_effect from src/core.py lines 94-120: raises Exception if any
supplied object is outside obj_params (checked before any mutation), then
constructs the Effect with the literal probability 100 (the probability
argument of add_effect is NOT forwarded: line 119 reads
Effect(name, objects, func, probability=100)) and appends it. -/
def Action.add_effect (a : Action) (name : String) (objects : List String)
    (func : String) (_probability : PyVal) : Except PyErr Action :=
  if objects.all (fun obj => a.obj_params.contains obj) then do
    let effect ← Effect.init name objects func (.int 100)
    pure { a with effects := a.effects ++ [effect] }
  else
    .error (.exception "Object must be one of the objects supplied to the action")

/-- Action.add_precond from src/core.py lines 122-143: raises Exception if any
supplied object is outside obj_params (checked before any mutation), then
appends a Predicate built from name and objects. -/
def Action.add_precond (a : Action) (name : String) (objects : List String) :
    Except PyErr Action :=
  if objects.all (fun obj => a.obj_params.contains obj) then
    .ok { a with precond := a.precond ++ [Predicate.mk name objects] }
  else
    .error (.exception "Object must be one of the objects supplied to the action")

/-- Python set-of-strings helpers.  A Python set is carried as the List of its
iteration order; pySetEq is the order-insensitive equality Python == uses. -/
def pySetEq (xs ys : List String) : Bool :=
  xs.all (fun x => ys.contains x) && ys.all (fun y => xs.contains y)

/-- Python set.intersection: the elements of xs also present in ys (the
iteration order of a CPython intersection is unspecified; first-operand order
is the representative used here, and every theorem below that inspects an
intersection does so only up to pySetEq). -/
def pyInter (xs ys : List String) : List String :=
  xs.filter (fun x => ys.contains x)

/-- Python set.issubset: every element of xs is an element of ys. -/
def pySubset (xs ys : List String) : Bool :=
  xs.all (fun x => ys.contains x)

/-- Object occurring in a trace: an identifying name and its declared type
(object multi-typing is unsupported by the source, one type per object). -/
structure PyObj where
  name : String
  obj_type : String
  deriving DecidableEq, Repr

/-- Fluent from the trace layer (macq.trace.Fluent): a proposition name
applied to typed objects. -/
structure Fluent where
  name : String
  objects : List PyObj
  deriving DecidableEq, Repr

/-- Grounded action instance appearing in a trace step. -/
structure PyAction where
  name : String
  obj_params : List PyObj
  deriving DecidableEq, Repr

/-- Modelled from the spec: the trace Action class (not under src/) exposes a
details() canonical string key combining the action name and its parameters;
it is modelled as the name followed by the space-joined object names. -/
def PyAction.details (a : PyAction) : String :=
  a.name ++ " " ++ " ".intercalate (a.obj_params.map PyObj.name)

/-- LearnedAction as constructed by ARMS._step1 (src/macq/extract/arms.py
line 77): an action name together with the set of parameter types, the set
being carried in iteration order. -/
structure LearnedAction where
  name : String
  obj_params : List String
  deriving DecidableEq, Repr

/-- Modelled from the spec: LearnedAction.details() (class not under src/) is
the canonical string key combining name and parameter types; it is modelled
as the name followed by the space-joined types in iteration order. -/
def LearnedAction.details (a : LearnedAction) : String :=
  a.name ++ " " ++ " ".intercalate a.obj_params

/-- Python == on LearnedActions: name equality plus set equality of the
parameter-type sets. -/
def laEq (a b : LearnedAction) : Bool :=
  a.name == b.name && pySetEq a.obj_params b.obj_params

/-- Relation from src/macq/extract/arms.py lines 13-22: a dataclass holding a
fluent name and the set of object types, the set again carried in iteration
order because Relation.var joins it in iteration order. -/
structure Relation where
  name : String
  types : List String
  deriving DecidableEq, Repr

/-- Relation.var from src/macq/extract/arms.py lines 18-19: the name and the
space-joined type list in set-iteration order. -/
def Relation.var (r : Relation) : String :=
  r.name ++ " " ++ " ".intercalate r.types

/-- Python == on Relations (dataclass equality): equal names and equal type
sets, regardless of iteration order. -/
def pyRelEq (r1 r2 : Relation) : Bool :=
  r1.name == r2.name && pySetEq r1.types r2.types

/-- Relation.__hash__ from src/macq/extract/arms.py lines 21-22 computes
hash(self.var()).  Python string hashing maps equal strings to equal hashes
and distinct strings to distinct hashes up to SipHash collisions, so the hash
is modelled by its input string: two relations hash identically exactly when
their var strings coincide. -/
def Relation.hashKey (r : Relation) : String :=
  r.var

/-- Python dict lookup d[k]: scan the entries in insertion order and return
the value of the first entry whose key compares equal. -/
def pyLookup (keq : κ → κ → Bool) : List (κ × ν) → κ → Option ν
  | [], _ => none
  | (k, v) :: rest, a => if keq k a then some v else pyLookup keq rest a

/-- Python dict assignment d[k] = v: replace the value of the first entry
whose key compares equal (keeping the stored key object, as CPython does),
otherwise append the new entry. -/
def pySet (keq : κ → κ → Bool) : List (κ × ν) → κ → ν → List (κ × ν)
  | [], k, v => [(k, v)]
  | (k0, v0) :: rest, k, v =>
    if keq k0 k then (k0, v) :: rest else (k0, v0) :: pySet keq rest k v

/-- ARMS._step1 (src/macq/extract/arms.py lines 74-78): each observed action
instance becomes a LearnedAction whose parameter types are the set of the
object types of its parameters (set-comprehension dedup keeps the first
occurrence of each type in iteration order). -/
def mkLearned (pa : PyAction) : LearnedAction :=
  ⟨pa.name, (pa.obj_params.map PyObj.obj_type).dedup⟩

/-- Inner loop of ARMS._step1 (src/macq/extract/arms.py lines 83-86): starting
from an empty dict, for each a2 in the suffix actions[i:], store the
intersection of parameter-type sets under a2 whenever it is non-empty
(Python truthiness of a set is non-emptiness). -/
def step1Inner (a1 : LearnedAction) (suffix : List LearnedAction) :
    List (LearnedAction × List String) :=
  suffix.foldl
    (fun d a2 =>
      let s := pyInter a1.obj_params a2.obj_params
      if s.isEmpty then d else pySet laEq d a2 s)
    []

/-- Outer loop of ARMS._step1 (src/macq/extract/arms.py lines 80-88): for each
index i, connected_actions[actions[i]] is rebound to a fresh inner dict built
from the suffix actions[i:] (which starts with actions[i] itself). -/
def step1Outer : List LearnedAction →
    List (LearnedAction × List (LearnedAction × List String)) →
    List (LearnedAction × List (LearnedAction × List String))
  | [], outer => outer
  | a1 :: rest, outer =>
    step1Outer rest (pySet laEq outer a1 (step1Inner a1 (a1 :: rest)))

/-- ARMS._step1 (src/macq/extract/arms.py lines 63-88) on the list of observed
action instances: build the LearnedActions, then the triangular
connected-actions dict. -/
def step1 (obsActions : List PyAction) :
    List (LearnedAction × List (LearnedAction × List String)) :=
  step1Outer (obsActions.map mkLearned) []

/-- Propositional literal over the string-named solver variables: Var(s) or
Var(s).negate() from the nnf library as used by arms.py. -/
inductive Lit where
  | pos (s : String) : Lit
  | negl (s : String) : Lit
  deriving DecidableEq, Repr

/-- Constraint formulas constructed by arms.py.  The source only ever builds
two shapes over literals: Or(list-of-literals) (ARMS._step2A, and the I1 part
of ARMS._step2I) and And([Or(list-of-literals), literal]) (ARMS._step2I);
this type embeds exactly that fragment of the nnf library, including the
empty disjunction Or([]). -/
inductive PForm where
  | disj (ls : List Lit) : PForm
  | conjOr (ls : List Lit) (l : Lit) : PForm
  deriving DecidableEq, Repr

/-- The implication helper of ARMS._step2A (src/macq/extract/arms.py lines
142-143): Or([Var(a).negate(), Var(b)]). -/
def implication (a b : String) : PForm :=
  .disj [.negl a, .pos b]

/-- Solver variable name f-string of arms.py: relation.var() followed by a
role marker followed by action.details(). -/
def mkV (r : Relation) (marker : String) (a : LearnedAction) : String :=
  r.var ++ marker ++ a.details

/-- Role markers occurring in the variable names built by ARMS._step2A. -/
def markers : List String :=
  ["_in_add_", "_notin_pre_", "_in_pre_", "_notin_add_", "_in_del_"]

/-- A1 first direction (src/macq/extract/arms.py lines 157-162): relation in
add implies relation not in precondition. -/
def conA1a (r : Relation) (a : LearnedAction) : PForm :=
  implication (mkV r "_in_add_" a) (mkV r "_notin_pre_" a)

/-- A1 second direction (src/macq/extract/arms.py lines 163-168): relation in
precondition implies relation not in add. -/
def conA1b (r : Relation) (a : LearnedAction) : PForm :=
  implication (mkV r "_in_pre_" a) (mkV r "_notin_add_" a)

/-- A2 (src/macq/extract/arms.py lines 172-177): relation in delete implies
relation in precondition. -/
def conA2 (r : Relation) (a : LearnedAction) : PForm :=
  implication (mkV r "_in_del_" a) (mkV r "_in_pre_" a)

/-- ARMS._step2A (src/macq/extract/arms.py lines 137-179): for every action
and every relation whose type set is a subset of the action parameter types,
append the three implications A1a, A1b, A2, in loop order. -/
def step2A (acts : List LearnedAction) (rels : List Relation) : List PForm :=
  acts.flatMap (fun action =>
    rels.flatMap (fun relation =>
      if pySubset relation.types action.obj_params then
        [conA1a relation action, conA1b relation action, conA2 relation action]
      else []))

/-- Observation step: the action taken and the optional partial state, a
mapping from fluents to observed truth values carried in insertion order. -/
structure Obs where
  action : PyAction
  state : Option (List (Fluent × Bool))
  deriving DecidableEq, Repr

/-- Placeholder for the Python IndexError on indexing an empty list; pyPrev
is only applied while iterating a non-empty observation list, so this value
is unreachable in every use below. -/
def IndexErrorObs : Obs :=
  ⟨⟨"IndexError", []⟩, none⟩

/-- Python obs_list[i-1] where i is the non-negative enumerate index: for
i = 0 Python evaluates obs_list[-1], the LAST element of the list (negative
indexing), for i greater than 0 it is the element at position i-1. -/
def pyPrev (l : List Obs) (i : Nat) : Obs :=
  if i = 0 then l.getLast?.getD IndexErrorObs
  else (l.get? (i - 1)).getD IndexErrorObs

/-- Relation derivation of ARMS._step2 (src/macq/extract/arms.py lines
100-111): a fluent maps to the Relation with the same name and the set of
the object types of its objects (set construction keeps the first occurrence
of each type). -/
def relFor (f : Fluent) : Relation :=
  ⟨f.name, (f.objects.map PyObj.obj_type).dedup⟩

/-- I1 disjuncts of ARMS._step2I (src/macq/extract/arms.py lines 193-200):
one positive variable per step strictly before position i, naming the add
role of that step action. -/
def i1Vars (relVar : String) (earlier : List Obs) : List Lit :=
  earlier.map (fun o => Lit.pos (relVar ++ "_in_add_" ++ o.action.details))

/-- Constraint emitted by ARMS._step2I for one (step, true fluent) pair
(src/macq/extract/arms.py lines 193-208): And([Or(I1 variables), I2 variable])
where the I2 variable names the notin-del role of obs_list[i-1].action. -/
def i12Constraint (obsList : List Obs) (i : Nat) (f : Fluent) : PForm :=
  .conjOr (i1Vars (relFor f).var (obsList.take i))
    (.pos ((relFor f).var ++ "_notin_del_" ++ (pyPrev obsList i).action.details))

/-- Support-count key: the I3 counting of ARMS._step2I is keyed by the tuple
(relation, action, role string).  Python compares the Relation component with
dataclass equality and the action component by object identity; the theorems
below never depend on two different keys merging, so structural equality is
used. -/
def bumpSupport (sc : List ((Relation × PyAction × String) × Nat))
    (k : Relation × PyAction × String) :
    List ((Relation × PyAction × String) × Nat) :=
  match sc with
  | [] => [(k, 1)]
  | (k0, n) :: rest =>
    if k0 = k then (k0, n + 1) :: rest else (k0, n) :: bumpSupport rest k

/-- I3 key chosen at step i (src/macq/extract/arms.py lines 210-217): for a
step that is not the last of its trace, (relation, current action, pre);
for the last step, (relation, obs_list[i-1].action, add). -/
def i3Key (obsList : List Obs) (i : Nat) (obs : Obs) (f : Fluent) :
    Relation × PyAction × String :=
  if i < obsList.length - 1 then (relFor f, obs.action, "pre")
  else (relFor f, (pyPrev obsList i).action, "add")

/-- ARMS._step2I (src/macq/extract/arms.py lines 181-219): one pass over all
traces, steps and observed-true fluents, appending an I1-and-I2 constraint
and bumping the I3 support count for each. -/
def step2I (obsLists : List (List Obs)) :
    List PForm × List ((Relation × PyAction × String) × Nat) :=
  obsLists.foldl
    (fun acc obsList =>
      obsList.enum.foldl
        (fun acc2 iobs =>
          match iobs.2.state with
          | none => acc2
          | some items =>
            items.foldl
              (fun acc3 fv =>
                if fv.2 then
                  (acc3.1 ++ [i12Constraint obsList iobs.1 fv.1],
                   bumpSupport acc3.2 (i3Key obsList iobs.1 iobs.2 fv.1))
                else acc3)
              acc2)
        acc)
    ([], [])

/-- Observation lists handed to extraction: the traces, plus a flag modelling
whether obs_lists.type is the observation token class ARMS accepts
(src/macq/extract/arms.py line 34). -/
structure ObservationLists where
  traces : List (List Obs)
  tokenTypeOk : Bool
  deriving Repr

/-- Modelled from the spec: ObservationLists.get_fluents (class not under
src/) supplies the set of distinct fluents seen across the observed states
of all traces. -/
def ObservationLists.get_fluents (ol : ObservationLists) : List Fluent :=
  (ol.traces.flatMap (fun tr =>
    tr.flatMap (fun o => (o.state.getD []).map Prod.fst))).dedup

/-- Modelled from the spec: ObservationLists.get_actions (class not under
src/) supplies the action instances seen in the traces. -/
def ObservationLists.get_actions (ol : ObservationLists) : List PyAction :=
  ol.traces.flatMap (fun tr => tr.map Obs.action)

/-- Python set(relations.values()): two relations collapse into one set
element exactly when both their hashes (their var strings, see
Relation.hashKey) and their == agree; the first inserted representative is
kept. -/
def pyRelSet (rels : List Relation) : List Relation :=
  rels.foldl
    (fun acc r =>
      if acc.any (fun r0 => r0.var == r.var && pyRelEq r0 r) then acc
      else acc ++ [r])
    []

/-- ARMS._step2 (src/macq/extract/arms.py lines 90-135): derives the
relations, computes the action constraints and the information constraints
with support counts, and returns the empty list (the source line 135 reads
return [] with a WARNING temp comment; the support-rate normalization of
lines 115-132 sits inside a string literal and never executes, so no support
weight is ever computed). -/
def step2 (ol : ObservationLists)
    (connected : List (LearnedAction × List (LearnedAction × List String)))
    (fluents : List Fluent) : List PForm :=
  let relations := pyRelSet (fluents.map relFor)
  let _action_constraints := step2A (connected.map Prod.fst) relations
  let _info := step2I ol.traces
  ([] : List PForm)

/-- ARMS._check_goal (src/macq/extract/arms.py lines 45-49): returns True
unconditionally (goal support is not implemented). -/
def checkGoal (_ol : ObservationLists) : Bool :=
  true

/-- ARMS._arms (src/macq/extract/arms.py lines 56-61): computes the connected
actions and the constraints, then returns the empty set of learned actions
(source line 61: return set() with a WARNING temp comment). -/
def arms (ol : ObservationLists) (fluents : List Fluent) : List LearnedAction :=
  let connected_actions := step1 ol.get_actions
  let _constraints := step2 ol connected_actions fluents
  ([] : List LearnedAction)

/-- Modelled from the spec: the Model output artifact (class not under src/)
is the pair of the fluent set and the learned action set. -/
structure ArmsModel where
  fluents : List Fluent
  actions : List LearnedAction
  deriving DecidableEq, Repr

/-- ARMS.__new__ (src/macq/extract/arms.py lines 33-43): raise
IncompatibleObservationToken unless the observation token type matches, call
_check_goal (whose result is discarded), extract the fluents, run _arms and
wrap the results in a Model. -/
def ARMSnew (ol : ObservationLists) : Except PyErr ArmsModel :=
  if ol.tokenTypeOk then
    let _goal := checkGoal ol
    let fluents := ol.get_fluents
    .ok ⟨fluents, arms ol fluents⟩
  else
    .error (.exception "IncompatibleObservationToken")

/-- Marker pair of one action-constraint kind: the role markers of the
antecedent and of the consequent variable. -/
def conKind (p : String × String) (r : Relation) (a : LearnedAction) : PForm :=
  implication (mkV r p.1 a) (mkV r p.2 a)

/-- The three (antecedent, consequent) marker pairs of A1a, A1b and A2, in
the order the source emits them. -/
def kindMarkers : List (String × String) :=
  [("_in_add_", "_notin_pre_"), ("_in_pre_", "_notin_add_"), ("_in_del_", "_in_pre_")]

/-- Injectivity of the solver variable naming scheme over the given actions
and relations: distinct (relation, marker, action) triples never produce the
same variable name.  The spec calls this naming scheme load-bearing and
demands collision freedom; it is a hypothesis here because adversarial names
containing the marker substrings could break it. -/
abbrev varNamesInjective (acts : List LearnedAction) (rels : List Relation) : Prop :=
  ∀ r1 ∈ rels, ∀ m1 ∈ markers, ∀ a1 ∈ acts,
    ∀ r2 ∈ rels, ∀ m2 ∈ markers, ∀ a2 ∈ acts,
      mkV r1 m1 a1 = mkV r2 m2 a2 → r1 = r2 ∧ m1 = m2 ∧ a1 = a2

/-- Two-step trace of the end-to-end scenario: pick-up of a block immediately
followed by a step observing holding of that block true. -/
def pickupTrace (objName : String) : List Obs :=
  [⟨⟨"pick-up", [⟨objName, "block"⟩]⟩, none⟩,
   ⟨⟨"put-down", [⟨objName, "block"⟩]⟩,
    some [(⟨"holding", [⟨objName, "block"⟩]⟩, true)]⟩]

/-- The two-action, two-trace corpus of the end-to-end scenario of the spec:
every occurrence of pick-up is immediately followed by a step observing
holding true, and holding is never observed true without a preceding
pick-up. -/
def pickupCorpus : ObservationLists :=
  ⟨[pickupTrace "b1", pickupTrace "b2"], true⟩

/-- Trace whose first step observes a true fluent with no earlier action:
position 0 carries the pick-up action and an observed-true holding fluent,
position 1 carries put-down with no observed state. -/
def c3Trace : List Obs :=
  [⟨⟨"pick-up", [⟨"b1", "block"⟩]⟩,
    some [(⟨"holding", [⟨"b1", "block"⟩]⟩, true)]⟩,
   ⟨⟨"put-down", [⟨"b1", "block"⟩]⟩, none⟩]

/-- Single-step, single-trace corpus whose one step observes a true fluent,
so the I3 pass accumulates exactly one support count. -/
def c8Corpus : ObservationLists :=
  ⟨[[⟨⟨"pick-up", [⟨"b1", "block"⟩]⟩,
      some [(⟨"holding", [⟨"b1", "block"⟩]⟩, true)]⟩]], true⟩

/-- Two grounded action instances sharing the parameter type block. -/
def c2Actions : List PyAction :=
  [⟨"pick-up", [⟨"b1", "block"⟩]⟩, ⟨"put-down", [⟨"b2", "block"⟩]⟩]

/-- LearnedAction derived from the first instance of c2Actions. -/
def laPickup : LearnedAction :=
  ⟨"pick-up", ["block"]⟩

/-- LearnedAction derived from the second instance of c2Actions. -/
def laPutdown : LearnedAction :=
  ⟨"put-down", ["block"]⟩

/-- Concrete action list for exercising step2A: one learned action. -/
def c7Acts : List LearnedAction :=
  [⟨"pick-up", ["block"]⟩]

/-- Concrete relation list for exercising step2A: holding over block is
expressible by the action, at over loc is not. -/
def c7Rels : List Relation :=
  [⟨"holding", ["block"]⟩, ⟨"at", ["loc"]⟩]

/-- Fluent whose object types are seen first as t1 then t2. -/
def c6Fluent1 : Fluent :=
  ⟨"on", [⟨"a", "t1"⟩, ⟨"b", "t2"⟩]⟩

/-- Fluent with the same name and the same object-type multiset, whose types
are seen in the opposite order t2 then t1. -/
def c6Fluent2 : Fluent :=
  ⟨"on", [⟨"c", "t2"⟩, ⟨"d", "t1"⟩]⟩

/-- Concrete Action of src/core.py for the attachment theorems: the action
stack applied to the objects a and b, with empty precondition and effect
lists. -/
def stackAction : Action :=
  ⟨"stack", ["a", "b"], [], []⟩

theorem contains_iff_mem {xs : List String} {t : String} :
    xs.contains t = true ↔ t ∈ xs := by
  simp

theorem pySetEq_mem_iff {xs ys : List String} (h : pySetEq xs ys = true)
    (t : String) : t ∈ xs ↔ t ∈ ys := by
  simp only [pySetEq, Bool.and_eq_true, List.all_eq_true] at h
  constructor
  · intro ht
    exact contains_iff_mem.mp (h.1 t ht)
  · intro ht
    exact contains_iff_mem.mp (h.2 t ht)

theorem pySetEq_of_mem_iff {xs ys : List String} (h : ∀ t, t ∈ xs ↔ t ∈ ys) :
    pySetEq xs ys = true := by
  simp only [pySetEq, Bool.and_eq_true, List.all_eq_true]
  constructor
  · intro t ht
    exact contains_iff_mem.mpr ((h t).mp ht)
  · intro t ht
    exact contains_iff_mem.mpr ((h t).mpr ht)

theorem pyInter_mem {xs ys : List String} {t : String} :
    t ∈ pyInter xs ys ↔ t ∈ xs ∧ t ∈ ys := by
  simp [pyInter]

theorem laEq_mem_iff {a b : LearnedAction} (h : laEq a b = true) (t : String) :
    t ∈ a.obj_params ↔ t ∈ b.obj_params := by
  simp only [laEq, Bool.and_eq_true] at h
  exact pySetEq_mem_iff h.2 t

theorem pyLookup_mem {κ ν : Type} {keq : κ → κ → Bool} {l : List (κ × ν)}
    {a : κ} {v : ν} (h : pyLookup keq l a = some v) :
    ∃ k, keq k a = true ∧ (k, v) ∈ l := by
  induction l with
  | nil => simp [pyLookup] at h
  | cons e rest ih =>
    obtain ⟨k0, v0⟩ := e
    by_cases hk : keq k0 a = true
    · simp only [pyLookup, hk, if_true, Option.some.injEq] at h
      exact ⟨k0, hk, by simp [h]⟩
    · simp only [pyLookup, hk, if_false, Bool.false_eq_true] at h
      obtain ⟨k, hkeq, hmem⟩ := ih h
      exact ⟨k, hkeq, List.mem_cons_of_mem _ hmem⟩

theorem pySet_mem {κ ν : Type} {keq : κ → κ → Bool} {l : List (κ × ν)}
    {k0 : κ} {v0 : ν} {k : κ} {v : ν} (h : (k, v) ∈ pySet keq l k0 v0) :
    (k, v) ∈ l ∨ (v = v0 ∧ (k = k0 ∨ keq k k0 = true)) := by
  induction l with
  | nil =>
    simp only [pySet, List.mem_singleton, Prod.mk.injEq] at h
    exact Or.inr ⟨h.2, Or.inl h.1⟩
  | cons e rest ih =>
    obtain ⟨k1, v1⟩ := e
    by_cases hk : keq k1 k0 = true
    · simp only [pySet, hk, if_true, List.mem_cons, Prod.mk.injEq] at h
      rcases h with ⟨hkk, hvv⟩ | hmem
      · exact Or.inr ⟨hvv, Or.inr (hkk ▸ hk)⟩
      · exact Or.inl (List.mem_cons_of_mem _ hmem)
    · simp only [pySet, hk, if_false, Bool.false_eq_true, List.mem_cons] at h
      rcases h with hkk | hmem
      · exact Or.inl (List.mem_cons.mpr (Or.inl hkk))
      · rcases ih hmem with hl | hr
        · exact Or.inl (List.mem_cons_of_mem _ hl)
        · exact Or.inr hr

theorem step1Inner_aux (a1 : LearnedAction) :
    ∀ (suffix : List LearnedAction) (acc : List (LearnedAction × List String)),
      (∀ k S, (k, S) ∈ acc →
        S ≠ [] ∧ ∀ t, t ∈ S ↔ (t ∈ a1.obj_params ∧ t ∈ k.obj_params)) →
      ∀ k S,
        (k, S) ∈ suffix.foldl
          (fun d a2 =>
            let s := pyInter a1.obj_params a2.obj_params
            if s.isEmpty then d else pySet laEq d a2 s)
          acc →
        S ≠ [] ∧ ∀ t, t ∈ S ↔ (t ∈ a1.obj_params ∧ t ∈ k.obj_params) := by
  intro suffix
  induction suffix with
  | nil =>
    intro acc hacc k S h
    exact hacc k S h
  | cons a2 rest ih =>
    intro acc hacc k S h
    rw [List.foldl_cons] at h
    refine ih _ ?_ k S h
    intro k1 S1 hmem
    dsimp only at hmem
    by_cases hemp : (pyInter a1.obj_params a2.obj_params).isEmpty = true
    · rw [if_pos hemp] at hmem
      exact hacc k1 S1 hmem
    · rw [if_neg hemp] at hmem
      rcases pySet_mem hmem with hold | ⟨hS, hkey⟩
      · exact hacc k1 S1 hold
      · subst hS
        refine ⟨?_, ?_⟩
        · intro hnil
          rw [hnil] at hemp
          simp at hemp
        · intro t
          rcases hkey with rfl | heq
          · exact pyInter_mem
          · rw [pyInter_mem]
            exact and_congr_right fun _ => (laEq_mem_iff heq t).symm

theorem step1Inner_inv (a1 : LearnedAction) (suffix : List LearnedAction)
    (k : LearnedAction) (S : List String) (h : (k, S) ∈ step1Inner a1 suffix) :
    S ≠ [] ∧ ∀ t, t ∈ S ↔ (t ∈ a1.obj_params ∧ t ∈ k.obj_params) :=
  step1Inner_aux a1 suffix [] (by simp) k S h

theorem step1Outer_inv :
    ∀ (actions : List LearnedAction)
      (outer : List (LearnedAction × List (LearnedAction × List String))),
      (∀ K m, (K, m) ∈ outer → ∀ k S, (k, S) ∈ m →
        S ≠ [] ∧ ∀ t, t ∈ S ↔ (t ∈ K.obj_params ∧ t ∈ k.obj_params)) →
      ∀ K m, (K, m) ∈ step1Outer actions outer → ∀ k S, (k, S) ∈ m →
        S ≠ [] ∧ ∀ t, t ∈ S ↔ (t ∈ K.obj_params ∧ t ∈ k.obj_params) := by
  intro actions
  induction actions with
  | nil =>
    intro outer houter K m h
    exact houter K m h
  | cons a1 rest ih =>
    intro outer houter K m h
    rw [step1Outer] at h
    refine ih _ ?_ K m h
    intro K1 m1 hmem k S hkS
    rcases pySet_mem hmem with hold | ⟨hm, hkey⟩
    · exact houter K1 m1 hold k S hkS
    · subst hm
      obtain ⟨hnil, hiff⟩ := step1Inner_inv a1 (a1 :: rest) k S hkS
      refine ⟨hnil, fun t => ?_⟩
      rw [hiff t]
      rcases hkey with rfl | heq
      · exact Iff.rfl
      · exact and_congr_left fun _ => (laEq_mem_iff heq t).symm

/-- C2 (amended): whenever the connected-action mapping of ARMS._step1 lists
a2 under a1 with shared-type set S, the set S is non-empty and equals, as a
Python set, the intersection of the parameter-type sets of a1 and a2 taken
in either order — the recorded intersection is symmetric in content even
though the mapping itself is triangular and not symmetric. -/
theorem step1_connection_value (obsActions : List PyAction)
    (a1 a2 : LearnedAction) (m : List (LearnedAction × List String))
    (S : List String)
    (h1 : pyLookup laEq (step1 obsActions) a1 = some m)
    (h2 : pyLookup laEq m a2 = some S) :
    S ≠ [] ∧ pySetEq S (pyInter a1.obj_params a2.obj_params) = true ∧
      pySetEq S (pyInter a2.obj_params a1.obj_params) = true := by
  obtain ⟨K, hK, hKm⟩ := pyLookup_mem h1
  obtain ⟨k, hk, hkS⟩ := pyLookup_mem h2
  have hinv := step1Outer_inv (obsActions.map mkLearned) [] (by simp) K m hKm k S hkS
  obtain ⟨hnil, hiff⟩ := hinv
  have hiff2 : ∀ t, t ∈ S ↔ (t ∈ a1.obj_params ∧ t ∈ a2.obj_params) := by
    intro t
    rw [hiff t, laEq_mem_iff hK t, laEq_mem_iff hk t]
  refine ⟨hnil, ?_, ?_⟩
  · refine pySetEq_of_mem_iff fun t => ?_
    rw [pyInter_mem, hiff2 t]
  · refine pySetEq_of_mem_iff fun t => ?_
    rw [pyInter_mem, hiff2 t]
    exact and_comm

/-- C2 witness: the amended theorem applied to the concrete two-action corpus
c2Actions, with the lookups discharged by evaluation. -/
theorem step1_connection_value_witness :
    (["block"] : List String) ≠ [] ∧
      pySetEq ["block"] (pyInter ["block"] ["block"]) = true ∧
      pySetEq ["block"] (pyInter ["block"] ["block"]) = true :=
  step1_connection_value c2Actions laPickup laPutdown
    [(laPickup, ["block"]), (laPutdown, ["block"])] ["block"]
    (by decide) (by decide)

/-- C2 counterexample: in the corpus c2Actions the learned action pick-up is
connected to put-down with shared-type set containing block, but put-down has
no entry for pick-up in its inner mapping — the connected-action mapping of
ARMS._step1 is not symmetric, because the inner loop only ranges over the
suffix actions at positions i and later. -/
theorem step1_not_symmetric :
    ((pyLookup laEq (step1 c2Actions) laPickup).bind
        (fun m => pyLookup laEq m laPutdown)) = some ["block"] ∧
      ((pyLookup laEq (step1 c2Actions) laPutdown).bind
        (fun m => pyLookup laEq m laPickup)) = none := by
  decide

/-- C1: on the two-action, two-trace corpus of the end-to-end scenario, ARMS
extraction succeeds but returns a Model whose learned-action set is empty —
ARMS._arms discards the computed constraints and returns set() (source line
61, WARNING temp) — so no pick-up schema exists in the result, and in
particular none with holding in its add-list. -/
theorem ARMSnew_pickup_actions_empty :
    (ARMSnew pickupCorpus).map ArmsModel.actions = Except.ok [] := by
  rfl

/-- C3: on a trace whose first step observes a true fluent, ARMS._step2I does
not detect the empty I1 disjunction: it emits And([Or([]), i2]) with the
empty, always-false disjunction passed through, and its I2 variable names the
action of obs_list[-1] — here put-down b1, the action at position 1, the last
of the trace — instead of an action at position i-1 = -1, which does not
exist.  No initial-state requirement is emitted. -/
theorem step2I_empty_disjunction_passed_through :
    (step2I [c3Trace]).1 =
      [PForm.conjOr [] (.pos "holding block_notin_del_put-down b1")] ∧
      (c3Trace.get? 1).map (fun o => o.action.details) = some "put-down b1" := by
  decide

/-- C8: ARMS never computes a support weight: on a corpus whose Step-2I pass
accumulates a support count, ARMS._step2 still returns the empty constraint
list — the support-rate normalization of arms.py lines 115-132 sits inside a
string literal and never executes, so no (relation, action, role) triple is
ever assigned a weight. -/
theorem step2_returns_no_weighted_constraints :
    step2 c8Corpus (step1 c8Corpus.get_actions) c8Corpus.get_fluents = [] ∧
      (step2I c8Corpus.traces).2 =
        [((⟨"holding", ["block"]⟩, ⟨"pick-up", [⟨"b1", "block"⟩]⟩, "add"), 1)] := by
  decide

/-- C4: Effect.set_prob clamps integers to max(0, min(100, p)), but a
non-integer float does NOT raise: int(2.5) succeeds because the except clause
only catches ValueError, so the float 2.5 is stored unclamped and unconverted
both by set_prob and by the Effect constructor. -/
theorem set_prob_int_clamps_float_accepted :
    (∀ n : Int, Effect.set_prob (.int n) = .ok (.int (max 0 (min 100 n)))) ∧
      Effect.set_prob (.float (mkRat 5 2)) = .ok (.float (mkRat 5 2)) ∧
      Effect.init "eff" ["b"] "func1" (.float (mkRat 5 2)) =
        .ok ⟨"eff", ["b"], "func1", .float (mkRat 5 2)⟩ := by
  refine ⟨?_, by rfl, by rfl⟩
  intro n
  simp only [Effect.set_prob, pyIntConv, pyLtInt, pyGtInt, bind, Except.bind,
    pure, Except.pure]
  by_cases h0 : n < 0
  · rw [if_pos (by simpa using h0)]
    simp only [Except.ok.injEq, PyVal.int.injEq]
    omega
  · rw [if_neg (by simpa using h0)]
    by_cases h100 : n > 100
    · rw [if_pos (by simpa using h100)]
      simp only [Except.ok.injEq, PyVal.int.injEq]
      omega
    · rw [if_neg (by simpa using h100)]
      simp only [Except.ok.injEq, PyVal.int.injEq]
      omega

/-- C6: two Relations derived from fluents with the same name and the same
object-type multiset, whose type sets iterate in different orders, compare
equal under dataclass equality, yet their var strings — the inputs of
Relation.__hash__ — differ, so their hashes differ whenever Python string
hashing separates the two distinct var strings: equal relations do not hash
identically regardless of insertion order. -/
theorem relation_equal_but_hash_input_differs :
    pyRelEq (relFor c6Fluent1) (relFor c6Fluent2) = true ∧
      (relFor c6Fluent1).hashKey ≠ (relFor c6Fluent2).hashKey := by
  decide

theorem all_contains_eq_false {objects params : List String}
    (h : ∃ o ∈ objects, o ∉ params) :
    (objects.all fun obj => params.contains obj) = false := by
  obtain ⟨o, ho, hno⟩ := h
  rw [List.all_eq_false]
  exact ⟨o, ho, by simpa using hno⟩

theorem all_contains_eq_true {objects params : List String}
    (h : ∀ o ∈ objects, o ∈ params) :
    (objects.all fun obj => params.contains obj) = true := by
  rw [List.all_eq_true]
  intro o ho
  simpa using h o ho

theorem add_effect_error_of_foreign (a : Action) (name : String)
    (objects : List String) (func : String) (p : PyVal)
    (h : ∃ o ∈ objects, o ∉ a.obj_params) :
    a.add_effect name objects func p =
      .error (.exception "Object must be one of the objects supplied to the action") := by
  unfold Action.add_effect
  rw [if_neg (by rw [all_contains_eq_false h]; exact Bool.false_ne_true)]

theorem add_precond_error_of_foreign (a : Action) (name : String)
    (objects : List String) (h : ∃ o ∈ objects, o ∉ a.obj_params) :
    a.add_precond name objects =
      .error (.exception "Object must be one of the objects supplied to the action") := by
  unfold Action.add_precond
  rw [if_neg (by rw [all_contains_eq_false h]; exact Bool.false_ne_true)]

theorem add_effect_ok_of_params (a : Action) (name : String)
    (objects : List String) (func : String) (p : PyVal)
    (h : ∀ o ∈ objects, o ∈ a.obj_params) :
    a.add_effect name objects func p =
      .ok { a with effects := a.effects ++ [⟨name, objects, func, .int 100⟩] } := by
  unfold Action.add_effect
  rw [if_pos (all_contains_eq_true h)]
  rfl

theorem add_precond_ok_of_params (a : Action) (name : String)
    (objects : List String) (h : ∀ o ∈ objects, o ∈ a.obj_params) :
    a.add_precond name objects =
      .ok { a with precond := a.precond ++ [⟨name, objects⟩] } := by
  unfold Action.add_precond
  rw [if_pos (all_contains_eq_true h)]

/-- C5: attaching a precondition or an effect with any object outside the
action parameter list raises immediately, before any mutation (embedded as
returning the error with no updated action), and with every object in the
parameter list the call appends exactly one new precondition or effect and
raises nothing. -/
theorem add_attach_validates_objects (a : Action) (name : String)
    (objects : List String) (func : String) (p : PyVal) :
    ((∃ o ∈ objects, o ∉ a.obj_params) →
        a.add_effect name objects func p =
          .error (.exception "Object must be one of the objects supplied to the action") ∧
        a.add_precond name objects =
          .error (.exception "Object must be one of the objects supplied to the action")) ∧
    ((∀ o ∈ objects, o ∈ a.obj_params) →
        a.add_effect name objects func p =
          .ok { a with effects := a.effects ++ [⟨name, objects, func, .int 100⟩] } ∧
        a.add_precond name objects =
          .ok { a with precond := a.precond ++ [⟨name, objects⟩] }) :=
  ⟨fun h => ⟨add_effect_error_of_foreign a name objects func p h,
             add_precond_error_of_foreign a name objects h⟩,
   fun h => ⟨add_effect_ok_of_params a name objects func p h,
             add_precond_ok_of_params a name objects h⟩⟩

/-- C5 witness: on the concrete stack action, attaching with the foreign
object c errors for both add_effect and add_precond, and attaching with its
own objects appends exactly one entry. -/
theorem add_attach_validates_objects_witness :
    (stackAction.add_effect "on" ["a", "c"] "f1" (.int 94) =
        .error (.exception "Object must be one of the objects supplied to the action") ∧
      stackAction.add_precond "on" ["a", "c"] =
        .error (.exception "Object must be one of the objects supplied to the action")) ∧
    (stackAction.add_effect "on" ["a", "b"] "f1" (.int 94) =
        .ok ⟨"stack", ["a", "b"], [], [⟨"on", ["a", "b"], "f1", .int 100⟩]⟩ ∧
      stackAction.add_precond "on" ["a", "b"] =
        .ok ⟨"stack", ["a", "b"], [⟨"on", ["a", "b"]⟩], []⟩) :=
  ⟨(add_attach_validates_objects stackAction "on" ["a", "c"] "f1" (.int 94)).1
      (by decide),
   (add_attach_validates_objects stackAction "on" ["a", "b"] "f1" (.int 94)).2
      (by decide)⟩

/-- C9: for every probability argument p, add_effect appends an Effect whose
stored probability is the int 100 — the param p never reaches the Effect
constructor, because src/core.py line 119 hardcodes probability=100. -/
theorem add_effect_probability_hardcoded (a : Action) (name : String)
    (objects : List String) (func : String) (p : PyVal)
    (h : ∀ o ∈ objects, o ∈ a.obj_params) :
    a.add_effect name objects func p =
      .ok { a with effects := a.effects ++ [⟨name, objects, func, .int 100⟩] } :=
  add_effect_ok_of_params a name objects func p h

/-- C9 witness: supplying the non-integer, non-100 probability one half still
stores the int 100 on the appended effect. -/
theorem add_effect_probability_hardcoded_witness :
    stackAction.add_effect "on" ["a", "b"] "f1" (.float (mkRat 1 2)) =
      .ok ⟨"stack", ["a", "b"], [], [⟨"on", ["a", "b"], "f1", .int 100⟩]⟩ :=
  add_effect_probability_hardcoded stackAction "on" ["a", "b"] "f1"
    (.float (mkRat 1 2)) (by decide)

theorem kindMarkers_sub :
    ∀ p ∈ kindMarkers, p.1 ∈ markers ∧ p.2 ∈ markers := by
  decide

theorem conKind_pair_inj {acts : List LearnedAction} {rels : List Relation}
    (hinj : varNamesInjective acts rels) (m1 m2 m1' m2' : String)
    (hk : (m1, m2) ∈ kindMarkers) (hk' : (m1', m2') ∈ kindMarkers)
    (r r' : Relation) (hrr : r ∈ rels) (hrr' : r' ∈ rels)
    (a a' : LearnedAction) (haa : a ∈ acts) (haa' : a' ∈ acts) :
    conKind (m1, m2) r a = conKind (m1', m2') r' a' ↔
      (m1 = m1' ∧ m2 = m2' ∧ r = r' ∧ a = a') := by
  constructor
  · intro h
    simp only [conKind, implication, PForm.disj.injEq, List.cons.injEq,
      Lit.negl.injEq, Lit.pos.injEq, and_true] at h
    obtain ⟨h1, h2⟩ := h
    obtain ⟨hr1, hm1, ha1⟩ :=
      hinj r hrr m1 (kindMarkers_sub (m1, m2) hk).1 a haa
        r' hrr' m1' (kindMarkers_sub (m1', m2') hk').1 a' haa' h1
    obtain ⟨_, hm2, _⟩ :=
      hinj r hrr m2 (kindMarkers_sub (m1, m2) hk).2 a haa
        r' hrr' m2' (kindMarkers_sub (m1', m2') hk').2 a' haa' h2
    exact ⟨hm1, hm2, hr1, ha1⟩
  · rintro ⟨rfl, rfl, rfl, rfl⟩
    rfl

theorem sum_map_single {α : Type} [DecidableEq α] {l : List α} (hl : l.Nodup)
    {x : α} (hx : x ∈ l) (f : α → Nat) (h0 : ∀ y ∈ l, y ≠ x → f y = 0) :
    (l.map f).sum = f x := by
  induction l with
  | nil => cases hx
  | cons a t ih =>
    rw [List.nodup_cons] at hl
    rcases List.mem_cons.mp hx with rfl | hxt
    · have ht : (t.map f).sum = 0 := by
        apply List.sum_eq_zero
        intro v hv
        obtain ⟨y, hy, rfl⟩ := List.mem_map.mp hv
        exact h0 y (List.mem_cons_of_mem _ hy) (fun hyx => hl.1 (hyx ▸ hy))
      simp [ht]
    · have ha : f a = 0 :=
        h0 a (List.mem_cons_self a t) (fun hax => hl.1 (hax ▸ hxt))
      rw [List.map_cons, List.sum_cons, ha, Nat.zero_add]
      exact ih hl.2 hxt (fun y hy => h0 y (List.mem_cons_of_mem _ hy))

theorem count_cell {acts : List LearnedAction} {rels : List Relation}
    (hinj : varNamesInjective acts rels) {m1 m2 : String}
    (hk : (m1, m2) ∈ kindMarkers)
    {r r' : Relation} (hrr : r ∈ rels) (hrr' : r' ∈ rels)
    {a a' : LearnedAction} (haa : a ∈ acts) (haa' : a' ∈ acts) :
    List.count (conKind (m1, m2) r a)
      (if pySubset r'.types a'.obj_params then
        [conA1a r' a', conA1b r' a', conA2 r' a']
      else []) =
      if pySubset r'.types a'.obj_params = true ∧ r' = r ∧ a' = a then 1
      else 0 := by
  have e1 := conKind_pair_inj hinj "_in_add_" "_notin_pre_" m1 m2
    (by decide) hk r' r hrr' hrr a' a haa' haa
  have e2 := conKind_pair_inj hinj "_in_pre_" "_notin_add_" m1 m2
    (by decide) hk r' r hrr' hrr a' a haa' haa
  have e3 := conKind_pair_inj hinj "_in_del_" "_in_pre_" m1 m2
    (by decide) hk r' r hrr' hrr a' a haa' haa
  by_cases hsub : pySubset r'.types a'.obj_params = true
  · rw [if_pos hsub]
    have hcell :
        [conA1a r' a', conA1b r' a', conA2 r' a'] =
          [conKind ("_in_add_", "_notin_pre_") r' a',
           conKind ("_in_pre_", "_notin_add_") r' a',
           conKind ("_in_del_", "_in_pre_") r' a'] := rfl
    rw [hcell]
    by_cases hra : r' = r ∧ a' = a
    · obtain ⟨hre, hae⟩ := hra
      subst hre
      subst hae
      rw [if_pos ⟨hsub, rfl, rfl⟩]
      have hk3 : (m1 = "_in_add_" ∧ m2 = "_notin_pre_") ∨
          (m1 = "_in_pre_" ∧ m2 = "_notin_add_") ∨
          (m1 = "_in_del_" ∧ m2 = "_in_pre_") := by
        simpa [kindMarkers, Prod.ext_iff] using hk
      rcases hk3 with ⟨rfl, rfl⟩ | ⟨rfl, rfl⟩ | ⟨rfl, rfl⟩ <;>
        simp [List.count_cons, beq_iff_eq, e1, e2, e3]
    · rw [if_neg (fun h => hra ⟨h.2.1, h.2.2⟩)]
      refine List.count_eq_zero.mpr ?_
      intro hmem
      rcases List.mem_cons.mp hmem with hq | hmem2
      · exact hra (e1.mp hq.symm).2.2
      rcases List.mem_cons.mp hmem2 with hq | hmem3
      · exact hra (e2.mp hq.symm).2.2
      rcases List.mem_cons.mp hmem3 with hq | hmem4
      · exact hra (e3.mp hq.symm).2.2
      · cases hmem4
  · rw [if_neg hsub, if_neg (fun h => hsub h.1)]
    exact List.count_nil _

theorem count_row {acts : List LearnedAction} {rels : List Relation}
    (hinj : varNamesInjective acts rels) (hr : rels.Nodup) {m1 m2 : String}
    (hk : (m1, m2) ∈ kindMarkers) {r : Relation} (hrr : r ∈ rels)
    {a : LearnedAction} (haa : a ∈ acts)
    {a' : LearnedAction} (haa' : a' ∈ acts) :
    List.count (conKind (m1, m2) r a)
      (rels.flatMap (fun relation =>
        if pySubset relation.types a'.obj_params then
          [conA1a relation a', conA1b relation a', conA2 relation a']
        else [])) =
      if pySubset r.types a.obj_params = true ∧ a' = a then 1 else 0 := by
  rw [List.count_flatMap]
  by_cases hae : a' = a
  · subst hae
    rw [sum_map_single hr hrr]
    · show List.count (conKind (m1, m2) r a') _ = _
      rw [count_cell hinj hk hrr hrr haa haa']
      by_cases hsub : pySubset r.types a'.obj_params = true
      · rw [if_pos ⟨hsub, rfl, rfl⟩, if_pos ⟨hsub, rfl⟩]
      · rw [if_neg (fun h => hsub h.1), if_neg (fun h => hsub h.1)]
    · intro r2 hr2 hne
      show List.count (conKind (m1, m2) r a') _ = 0
      rw [count_cell hinj hk hrr hr2 haa haa']
      exact if_neg (fun h => hne h.2.1)
  · rw [if_neg (fun h => hae h.2)]
    apply List.sum_eq_zero
    intro v hv
    obtain ⟨r2, hr2, rfl⟩ := List.mem_map.mp hv
    show List.count (conKind (m1, m2) r a) _ = 0
    rw [count_cell hinj hk hrr hr2 haa haa']
    exact if_neg (fun h => hae h.2.2)

theorem count_step2A_kind {acts : List LearnedAction} {rels : List Relation}
    (hinj : varNamesInjective acts rels) (ha : acts.Nodup) (hr : rels.Nodup)
    {m1 m2 : String} (hk : (m1, m2) ∈ kindMarkers)
    {a : LearnedAction} (haa : a ∈ acts) {r : Relation} (hrr : r ∈ rels) :
    List.count (conKind (m1, m2) r a) (step2A acts rels) =
      if pySubset r.types a.obj_params = true then 1 else 0 := by
  unfold step2A
  rw [List.count_flatMap, sum_map_single ha haa]
  · show List.count (conKind (m1, m2) r a) _ = _
    rw [count_row hinj hr hk hrr haa haa]
    by_cases hsub : pySubset r.types a.obj_params = true
    · rw [if_pos ⟨hsub, rfl⟩, if_pos hsub]
    · rw [if_neg (fun h => hsub h.1), if_neg hsub]
  · intro a2 ha2 hne
    show List.count (conKind (m1, m2) r a) _ = 0
    rw [count_row hinj hr hk hrr haa ha2]
    exact if_neg (fun h => hne h.2)

/-- C7: ARMS._step2A emits, for every (action, relation) pair whose relation
type set is a Python subset of the action parameter types, each of the three
implications A1a (add implies not-pre), A1b (pre implies not-add) and A2
(del implies pre) exactly once, and it emits nothing for a pair failing the
subset test: each count is one when the subset test holds and zero
otherwise, and every emitted constraint arises from some qualifying pair.
Hypotheses: the action and relation lists are duplicate free, and the
variable-naming scheme is collision free on them (varNamesInjective), which
the spec demands of the naming scheme. -/
theorem step2A_exact (acts : List LearnedAction) (rels : List Relation)
    (ha : acts.Nodup) (hr : rels.Nodup) (hinj : varNamesInjective acts rels) :
    (∀ a ∈ acts, ∀ r ∈ rels,
      List.count (conA1a r a) (step2A acts rels) =
          (if pySubset r.types a.obj_params = true then 1 else 0) ∧
        List.count (conA1b r a) (step2A acts rels) =
          (if pySubset r.types a.obj_params = true then 1 else 0) ∧
        List.count (conA2 r a) (step2A acts rels) =
          (if pySubset r.types a.obj_params = true then 1 else 0)) ∧
      ∀ c ∈ step2A acts rels, ∃ a ∈ acts, ∃ r ∈ rels,
        pySubset r.types a.obj_params = true ∧
          (c = conA1a r a ∨ c = conA1b r a ∨ c = conA2 r a) := by
  constructor
  · intro a haa r hrr
    refine ⟨?_, ?_, ?_⟩
    · exact count_step2A_kind hinj ha hr (by decide) haa hrr
    · exact count_step2A_kind hinj ha hr (by decide) haa hrr
    · exact count_step2A_kind hinj ha hr (by decide) haa hrr
  · intro c hc
    rw [step2A, List.mem_flatMap] at hc
    obtain ⟨a, haa, hc2⟩ := hc
    rw [List.mem_flatMap] at hc2
    obtain ⟨r, hrr, hcell⟩ := hc2
    by_cases hsub : pySubset r.types a.obj_params = true
    · rw [if_pos hsub] at hcell
      refine ⟨a, haa, r, hrr, hsub, ?_⟩
      rcases List.mem_cons.mp hcell with h1 | hcell2
      · exact Or.inl h1
      rcases List.mem_cons.mp hcell2 with h2 | hcell3
      · exact Or.inr (Or.inl h2)
      rcases List.mem_cons.mp hcell3 with h3 | hcell4
      · exact Or.inr (Or.inr h3)
      · cases hcell4
    · rw [if_neg hsub] at hcell
      cases hcell

/-- C7 witness: on the concrete one-action, two-relation instance, the
qualifying pair (pick-up, holding) gets its A1a constraint exactly once and
the non-qualifying pair (pick-up, at) gets none. -/
theorem step2A_exact_witness :
    List.count (conA1a ⟨"holding", ["block"]⟩ ⟨"pick-up", ["block"]⟩)
        (step2A c7Acts c7Rels) = 1 ∧
      List.count (conA1a ⟨"at", ["loc"]⟩ ⟨"pick-up", ["block"]⟩)
        (step2A c7Acts c7Rels) = 0 :=
  ⟨((step2A_exact c7Acts c7Rels (by decide) (by decide) (by decide)).1
      ⟨"pick-up", ["block"]⟩ (by decide) ⟨"holding", ["block"]⟩ (by decide)).1,
   ((step2A_exact c7Acts c7Rels (by decide) (by decide) (by decide)).1
      ⟨"pick-up", ["block"]⟩ (by decide) ⟨"at", ["loc"]⟩ (by decide)).1⟩

end Macq
